import Mathlib

/-!
Shallow embedding of the dnscontrol-library helper functions
(`src/lib/util.js`, `src/lib/generic.js`, and the Microsoft 365 helper),
together with theorems settling the specification claims about them.

Modelling conventions:
* JavaScript strings are modelled as Lean `String` (sequences of code
  points; all inputs of interest are ASCII, where code points coincide
  with the UTF-16 code units used by `charCodeAt`).
* A JavaScript value that may be `null` or a string is an `Option String`;
  JS truthiness of such a value (`if (ipv4)`, `filter(a => a)`) is
  `jsTruthy`: `null` and the empty string are falsy.
* Variadic trailing-modifier arguments are a `List JSArg`, where `JSArg`
  distinguishes `null`, scalar string-like modifiers, and array-shaped
  arguments (the only shapes the library's type-sniffing inspects:
  `typeof x === "object" && Array.isArray(x)` holds exactly for arrays).
* The host runtime's record constructors (`A`, `AAAA`, `CNAME`, `MX`,
  `TXT`, `PTR`) are opaque: they are modelled as constructors of the
  inductive `Record`, storing exactly the arguments they were given.
* `D_EXTEND(REV(alias), ptrRecord)` calls are modelled as `RevExt`
  values recording the alias handed to `REV` and the PTR record.
* Deferred per-domain closures (`DCL_UTIL_DOMAIN(function (domain) ...)`)
  are modelled as Lean functions from the domain name.
-/

/-- A JavaScript value appearing in a variadic trailing-argument list:
`null`, a scalar (string-like) modifier, or an array of reverse aliases
(each of which may itself be `null` or a string). -/
inductive JSArg where
  | null
  | str (s : String)
  | arr (elems : List (Option String))
deriving DecidableEq, Repr

/-- JS truthiness of a `string | null` value: `null` and `""` are falsy. -/
def jsTruthy : Option String → Bool
  | none => false
  | some s => s != ""

/-- A DNS record descriptor as produced by the host runtime's primitive
constructors, storing exactly the arguments the library passes. -/
inductive Record where
  | A (name ip : String) (mods : List JSArg)
  | AAAA (name ip : String) (mods : List JSArg)
  | CNAME (name target : String) (mods : List JSArg)
  | MX (name : String) (priority : Nat) (target : String)
  | TXT (name value : String)
  | PTR (name target : String) (mods : List JSArg)
deriving DecidableEq, Repr

/-- One `D_EXTEND(REV(alias), record)` reverse-zone extension request:
`rev` is the alias handed to `REV`, `ptr` the record handed along. -/
structure RevExt where
  rev : String
  ptr : Record
deriving DecidableEq, Repr

/-- Embedding of JS `s.slice(-1)`: the last character as a string
(empty string when `s` is empty). -/
def sliceLast (s : String) : String :=
  match s.data.getLast? with
  | some c => String.mk [c]
  | none => ""

/-- Embedding of `DCL_UTIL_FQDN` (src/lib/util.js): qualify a possibly
partial name against a domain.  `name.slice(-1) === "."` keeps the name,
`name !== "@"` appends the domain, otherwise the domain itself is used. -/
def DCL_UTIL_FQDN (domain name : String) : String :=
  if sliceLast name = "." then
    name
  else if name ≠ "@" then
    name ++ "." ++ domain ++ "."
  else
    domain ++ "."

/-- Embedding of JS `ToInt32`: reduce an integer into `[-2^31, 2^31)`. -/
def toInt32 (x : Int) : Int :=
  if x % 4294967296 < 2147483648 then x % 4294967296
  else x % 4294967296 - 4294967296

/-- Embedding of JS `ToUint32` (`x >>> 0`): reduce into `[0, 2^32)`. -/
def toUint32 (x : Int) : Int :=
  x % 4294967296

/-- One iteration of the `DCL_UTIL_HASH` loop:
`hash = ((hash << 5) - hash) + character; hash >>>= 0;`.
JS `<<` coerces its operand with `ToInt32` and wraps the result. -/
def hashStep (h : Int) (c : Nat) : Int :=
  toUint32 (toInt32 (toInt32 h * 32) - h + c)

/-- The `DCL_UTIL_HASH` accumulation loop over the input's characters. -/
def hashCoreJS : Int → List Char → Int
  | h, [] => h
  | h, c :: cs => hashCoreJS (hashStep h c.toNat) cs

/-- The numeric value `hash` holds after the `DCL_UTIL_HASH` loop. -/
def hashValue (s : String) : Nat :=
  (hashCoreJS 0 s.data).toNat

/-- Digit character used by JS `Number.prototype.toString(16)`:
`0`-`9` then lowercase `a`-`f`. -/
def hexDigit (m : Nat) : Char :=
  if m < 10 then Char.ofNat (48 + m) else Char.ofNat (87 + m)

/-- Fuel-driven core of hexadecimal rendering (most significant digit
first, accumulator holds the digits already produced). -/
def hexCore : Nat → Nat → List Char → List Char
  | 0, _, acc => acc
  | fuel + 1, n, acc =>
    if n < 16 then hexDigit n :: acc
    else hexCore fuel (n / 16) (hexDigit (n % 16) :: acc)

/-- Embedding of JS `n.toString(16)` for a nonnegative integer `n`:
lowercase hexadecimal, no leading zeros, `"0"` for zero. -/
def toHexString (n : Nat) : String :=
  String.mk (hexCore (n + 1) n [])

/-- Embedding of `DCL_UTIL_HASH` (src/lib/util.js). -/
def DCL_UTIL_HASH (input : String) : String :=
  toHexString (hashValue input)

/-- Embedding of `DCL_HOST` (src/lib/generic.js): A and/or AAAA records,
each guarded by JS truthiness of its address, modifiers forwarded. -/
def DCL_HOST (name : String) (ipv4 ipv6 : Option String) (mods : List JSArg) : List Record :=
  let records : List Record := []
  let records := if jsTruthy ipv4 then records ++ [Record.A name (ipv4.getD "") mods] else records
  let records := if jsTruthy ipv6 then records ++ [Record.AAAA name (ipv6.getD "") mods] else records
  records

/-- Embedding of `DCL_WEB` (src/lib/generic.js): the `DCL_HOST` records,
plus a `www → @` CNAME when the name is `"@"` and an address is truthy. -/
def DCL_WEB (name : String) (ipv4 ipv6 : Option String) (mods : List JSArg) : List Record :=
  let records := DCL_HOST name ipv4 ipv6 mods
  if (jsTruthy ipv4 || jsTruthy ipv6) && name == "@" then
    records ++ [Record.CNAME "www" "@" mods]
  else
    records

/-- Embedding of the array-sniffing prologue of `DCL_HOST_PTR`:
`typeof modifiers[0] === "object" && Array.isArray(modifiers[0])` holds
exactly when the first trailing argument is an array, in which case it is
shifted off and its elements become extra reverse aliases. -/
def splitRevArgs : List JSArg → List (Option String) × List JSArg
  | JSArg.arr xs :: rest => (xs, rest)
  | mods => ([], mods)

/-- Result of `DCL_HOST_PTR`: the immediately produced forward records and
the deferred reverse step (a closure over the domain name, issuing
`D_EXTEND(REV(alias), PTR(alias, fqdn, ...modifiers))` requests). -/
structure HostPtrResult where
  forward : List Record
  reverse : String → List RevExt

/-- Embedding of `DCL_HOST_PTR` (src/lib/generic.js).  Note the source
calls `DCL_HOST(name, ipv4, ipv6)` without forwarding the modifiers; the
(post-shift) modifiers are passed to the `PTR` constructor only. -/
def DCL_HOST_PTR (name : String) (ipv4 ipv6 : Option String) (mods : List JSArg) : HostPtrResult :=
  let split := splitRevArgs mods
  let reverseAliases : List (Option String) := [ipv4, ipv6] ++ split.1
  let modifiers := split.2
  ⟨DCL_HOST name ipv4 ipv6 [],
   fun domain =>
     (reverseAliases.filter jsTruthy).map (fun a =>
       ⟨a.getD "", Record.PTR (a.getD "") (DCL_UTIL_FQDN domain name) modifiers⟩)⟩

/-- Embedding of `DCL_ACME` (src/lib/generic.js): prefix the name with
`_acme-challenge`, then return the deferred builder producing one CNAME
to the hashed origin inside the delegated zone. -/
def DCL_ACME (name zone : String) : String → Record :=
  let n := if name ≠ "@" then "_acme-challenge." ++ name else "_acme-challenge"
  fun domain =>
    let origin := DCL_UTIL_FQDN domain n
    let target := DCL_UTIL_FQDN zone (DCL_UTIL_HASH origin)
    Record.CNAME n target []

/-- The `services` argument of `DCL_MICROSOFT365`: an optional `mail`
identifier and an optional DKIM selector map (modelled as an association
list in the object's enumeration order; `some []` is a defined-but-empty
map, which is truthy in JS). -/
structure Ms365Services where
  mail : Option String
  dkim : Option (List (String × String))
deriving DecidableEq, Repr

/-- Embedding of `DCL_MICROSOFT365` (Microsoft 365 helper source file). -/
def DCL_MICROSOFT365 (code : String) (services : Option Ms365Services) : List Record :=
  let records := [Record.TXT "@" ("MS=" ++ code)]
  match services with
  | none => records
  | some sv =>
    if jsTruthy sv.mail then
      let m := sv.mail.getD ""
      let records := records ++
        [Record.MX "@" 0 (m ++ ".mail.protection.outlook.com."),
         Record.TXT "@" "v=spf1 include:spf.protection.outlook.com -all",
         Record.CNAME "autodiscover" "autodiscover.outlook.com." []]
      match sv.dkim with
      | some entries =>
        records ++ entries.map (fun e => Record.CNAME (e.1 ++ "._domainkey") e.2 [])
      | none =>
        records ++
          [Record.CNAME "selector1._domainkey"
             ("selector1-" ++ m ++ "._domainkey.snapserv.onmicrosoft.com.") [],
           Record.CNAME "selector2._domainkey"
             ("selector2-" ++ m ++ "._domainkey.snapserv.onmicrosoft.com.") []]
    else records

/-- `true` for a CNAME record whose name ends in `._domainkey`. -/
def isDomainkeyCname : Record → Bool
  | Record.CNAME n _ _ => List.isSuffixOf "._domainkey".data n.data
  | _ => false

/-- Modelled from the spec (claim side): the rolling-hash fold of C4,
`hash = (hash << 5) - hash + charCode`, reduced modulo `2^32` after each
step, starting from 0.  Stated over `Nat`, to be compared with the
source-embedded `hashValue`. -/
def hashFoldSpec (s : String) : Nat :=
  s.data.foldl (fun h c => ((h <<< 5) - h + c.toNat) % 4294967296) 0

/-- `true` for a character that lowercase hexadecimal may contain
(`0`-`9`, `a`-`f`). -/
def isHexChar (c : Char) : Bool :=
  (48 ≤ c.toNat && c.toNat ≤ 57) || (97 ≤ c.toNat && c.toNat ≤ 102)

/-- `true` for a CNAME record whose record name is `"www"`. -/
def isWwwCname : Record → Bool
  | Record.CNAME n _ _ => n == "www"
  | _ => false

/-! ### String helper lemmas for the name normalizer -/

lemma data_append (s t : String) : (s ++ t).data = s.data ++ t.data := by
  cases s; cases t; rfl

lemma sliceLast_eq_dot (s : String) : sliceLast s = "." ↔ s.data.getLast? = some '.' := by
  have hdot : ("." : String) = String.mk ['.'] := rfl
  unfold sliceLast
  cases h : s.data.getLast? with
  | none =>
    simp only [hdot]
    constructor
    · intro hx; exact absurd hx (by decide)
    · intro hx; exact Option.noConfusion hx
  | some c =>
    simp [hdot, String.ext_iff]

lemma sliceLast_append_dot (s : String) : sliceLast (s ++ ".") = "." := by
  have h : (s ++ ".").data = s.data ++ ['.'] := by
    rw [data_append]
  simp [sliceLast, h, List.getLast?_concat]

lemma fqdn_of_absolute (zone s : String) (h : sliceLast s = ".") :
    DCL_UTIL_FQDN zone s = s := by
  unfold DCL_UTIL_FQDN
  rw [if_pos h]

/-- C3 (confirmed): `DCL_UTIL_FQDN` returns the name unchanged when it ends
with `"."`, `zone ++ "."` when the name is `"@"`, and
`name ++ "." ++ zone ++ "."` in every other case; in particular the three
listed examples hold. -/
theorem claim_c3_fqdn_branches :
    (∀ zone name : String,
      DCL_UTIL_FQDN zone name =
        if name.data.getLast? = some '.' then name
        else if name = "@" then zone ++ "."
        else name ++ "." ++ zone ++ ".")
    ∧ DCL_UTIL_FQDN "example.com" "@" = "example.com."
    ∧ DCL_UTIL_FQDN "example.com" "www" = "www.example.com."
    ∧ DCL_UTIL_FQDN "example.com" "host." = "host." := by
  refine ⟨fun zone name => ?_, by decide, by decide, by decide⟩
  unfold DCL_UTIL_FQDN
  by_cases h1 : sliceLast name = "."
  · rw [if_pos h1, if_pos ((sliceLast_eq_dot name).mp h1)]
  · rw [if_neg h1, if_neg (fun hh => h1 ((sliceLast_eq_dot name).mpr hh))]
    by_cases h2 : name = "@" <;> simp [h2]

/-- C7 (confirmed): FQDN normalization is idempotent — normalizing an
already-normalized name leaves it unchanged, the absolute-name case being
a fixed point. -/
theorem claim_c7_fqdn_idempotent :
    ∀ zone name : String,
      DCL_UTIL_FQDN zone (DCL_UTIL_FQDN zone name) = DCL_UTIL_FQDN zone name := by
  intro zone name
  apply fqdn_of_absolute
  unfold DCL_UTIL_FQDN
  by_cases h1 : sliceLast name = "."
  · rw [if_pos h1]; exact h1
  · rw [if_neg h1]
    by_cases h2 : name ≠ "@"
    · rw [if_pos h2]; exact sliceLast_append_dot _
    · rw [if_neg h2]; exact sliceLast_append_dot _

/-! ### Arithmetic lemmas for the rolling hash -/

lemma toInt32_emod (x : Int) : toInt32 x % 4294967296 = x % 4294967296 := by
  unfold toInt32; split <;> omega

lemma hashStep_eq (h : Int) (c : Nat) :
    hashStep h c = (31 * h + c) % 4294967296 := by
  unfold hashStep toUint32
  have h1 := toInt32_emod h
  have h2 := toInt32_emod (toInt32 h * 32)
  omega

lemma hashStep_cast (n c : Nat) :
    hashStep (↑n) c = ↑((31 * n + c) % 4294967296) := by
  rw [hashStep_eq]; omega

lemma hashCoreJS_cast (l : List Char) :
    ∀ n : Nat, hashCoreJS (↑n) l =
      ↑(l.foldl (fun h c => (31 * h + c.toNat) % 4294967296) n) := by
  induction l with
  | nil => intro n; rfl
  | cons c cs ih =>
    intro n
    simp only [hashCoreJS, List.foldl_cons]
    rw [hashStep_cast, ih]

lemma hashValue_eq_natFold (s : String) :
    hashValue s = s.data.foldl (fun h c => (31 * h + c.toNat) % 4294967296) 0 := by
  unfold hashValue
  rw [show (0 : Int) = ((0 : Nat) : Int) from rfl, hashCoreJS_cast]
  exact Int.toNat_natCast _

/-- C4 (confirmed): `DCL_UTIL_HASH` is the lowercase-hexadecimal rendering
of the fold `hash = (hash << 5) - hash + charCode`, reduced modulo `2^32`
after each step, starting from 0. -/
theorem claim_c4_hash_formula :
    ∀ s : String, DCL_UTIL_HASH s = toHexString (hashFoldSpec s) := by
  intro s
  unfold DCL_UTIL_HASH hashFoldSpec
  congr 1
  rw [hashValue_eq_natFold]
  have hf : (fun (h : Nat) (c : Char) => ((h <<< 5) - h + c.toNat) % 4294967296)
      = fun (h : Nat) (c : Char) => (31 * h + c.toNat) % 4294967296 := by
    funext h c
    rw [Nat.shiftLeft_eq]
    norm_num
    omega
  rw [hf]

/-! ### Hexadecimal-rendering lemmas -/

lemma natFold_lt (l : List Char) :
    ∀ n : Nat, n < 4294967296 →
      l.foldl (fun h c => (31 * h + c.toNat) % 4294967296) n < 4294967296 := by
  induction l with
  | nil => intro n hn; exact hn
  | cons c cs ih =>
    intro n _
    exact ih _ (Nat.mod_lt _ (by norm_num))

lemma hashValue_lt (s : String) : hashValue s < 4294967296 := by
  rw [hashValue_eq_natFold]
  exact natFold_lt _ 0 (by norm_num)

lemma hexCore_length :
    ∀ (fuel n : Nat) (acc : List Char) (k : Nat), 1 ≤ k → n < 16 ^ k →
      (hexCore fuel n acc).length ≤ k + acc.length := by
  intro fuel
  induction fuel with
  | zero =>
    intro n acc k hk _
    unfold hexCore; omega
  | succ f ih =>
    intro n acc k hk hn
    unfold hexCore
    by_cases h16 : n < 16
    · rw [if_pos h16]; simp; omega
    · rw [if_neg h16]
      have hk2 : 2 ≤ k := by
        by_contra hcon
        have hk1 : k = 1 := by omega
        subst hk1
        rw [pow_one] at hn
        omega
      have h16k : 16 ^ k = 16 * 16 ^ (k - 1) := by
        conv_lhs => rw [show k = 1 + (k - 1) by omega]
        rw [pow_add, pow_one]
      have hdiv : n / 16 < 16 ^ (k - 1) := by
        rw [Nat.div_lt_iff_lt_mul (by norm_num)]
        omega
      have := ih (n / 16) (hexDigit (n % 16) :: acc) (k - 1) (by omega) hdiv
      simp at this ⊢
      omega

lemma isHexChar_hexDigit (m : Nat) (hm : m < 16) : isHexChar (hexDigit m) = true := by
  interval_cases m <;> decide

lemma hexCore_all :
    ∀ (fuel n : Nat) (acc : List Char), acc.all isHexChar = true →
      (hexCore fuel n acc).all isHexChar = true := by
  intro fuel
  induction fuel with
  | zero =>
    intro n acc h
    unfold hexCore; exact h
  | succ f ih =>
    intro n acc h
    unfold hexCore
    by_cases h16 : n < 16
    · rw [if_pos h16]
      simp only [List.all_cons, h, isHexChar_hexDigit n h16, Bool.and_self]
    · rw [if_neg h16]
      refine ih _ _ ?_
      simp only [List.all_cons, h,
        isHexChar_hexDigit (n % 16) (Nat.mod_lt _ (by norm_num)), Bool.and_self]

/-- C8 (confirmed): the hash accumulator denotes an unsigned 32-bit value,
and `DCL_UTIL_HASH` renders it as at most 8 characters, all of them
lowercase hexadecimal digits (`0`-`9`, `a`-`f`). -/
theorem claim_c8_hash_hex :
    ∀ s : String,
      hashValue s < 4294967296
      ∧ (DCL_UTIL_HASH s).length ≤ 8
      ∧ ((DCL_UTIL_HASH s).data.all isHexChar) = true := by
  intro s
  refine ⟨hashValue_lt s, ?_, ?_⟩
  · have h := hexCore_length (hashValue s + 1) (hashValue s) [] 8 (by norm_num)
      (by have := hashValue_lt s; norm_num; omega)
    simpa [DCL_UTIL_HASH, toHexString, String.length] using h
  · have h := hexCore_all (hashValue s + 1) (hashValue s) [] rfl
    simpa [DCL_UTIL_HASH, toHexString] using h

/-! ### Claims about the record builders -/

set_option maxRecDepth 4096 in
/-- C2 (confirmed): the deferred builder of `DCL_ACME(name, zone)`, applied
to a domain, emits exactly one CNAME whose name is the prefixed name
(`"_acme-challenge"` for `"@"`, else `"_acme-challenge." ++ name`) and whose
target is `Normalize(zone, Hash(Normalize(domain, prefixedName)))`; in
particular `DCL_ACME("@", "acme.example.net")` on `"example.com"` yields one
CNAME targeting `Hash("_acme-challenge.example.com.") ++ ".acme.example.net."`. -/
theorem claim_c2_acme :
    (∀ name zone domain : String,
      DCL_ACME name zone domain =
        Record.CNAME (if name = "@" then "_acme-challenge" else "_acme-challenge." ++ name)
          (DCL_UTIL_FQDN zone (DCL_UTIL_HASH (DCL_UTIL_FQDN domain
            (if name = "@" then "_acme-challenge" else "_acme-challenge." ++ name)))) [])
    ∧ DCL_ACME "@" "acme.example.net" "example.com" =
        Record.CNAME "_acme-challenge"
          (DCL_UTIL_HASH "_acme-challenge.example.com." ++ ".acme.example.net.") [] := by
  constructor
  · intro name zone domain
    unfold DCL_ACME
    by_cases h : name = "@" <;> simp [h]
  · decide

/-- C6 (corrected): `DCL_HOST` emits the A record exactly when `ipv4` is
truthy (non-null and non-empty) and the AAAA record exactly when `ipv6` is
truthy, in that order; a falsy address skips its record type without error.
The two listed examples hold. -/
theorem claim_c6_host :
    (∀ (name : String) (ipv4 ipv6 : Option String) (mods : List JSArg),
      DCL_HOST name ipv4 ipv6 mods =
        (if jsTruthy ipv4 then [Record.A name (ipv4.getD "") mods] else [])
        ++ (if jsTruthy ipv6 then [Record.AAAA name (ipv6.getD "") mods] else []))
    ∧ DCL_HOST "www" (some "1.2.3.4") none [] = [Record.A "www" "1.2.3.4" []]
    ∧ DCL_HOST "www" none none [] = [] := by
  refine ⟨fun name ipv4 ipv6 mods => ?_, by decide, by decide⟩
  unfold DCL_HOST
  by_cases h4 : jsTruthy ipv4 <;> by_cases h6 : jsTruthy ipv6 <;> simp [h4, h6]

/-- C6 counterexample: `ipv4 = some ""` is non-null, yet `DCL_HOST` emits
no A record for it (JS truthiness drops the empty string). -/
theorem claim_c6_cex :
    (some "" : Option String) ≠ none
    ∧ DCL_HOST "www" (some "") none [] = [] := by decide

/-- C10 (confirmed): `DCL_WEB` returns exactly the `DCL_HOST` records for
the same arguments, with one `www → @` CNAME appended exactly when the name
is `"@"` and at least one address is truthy; a `www` CNAME occurs in the
output in exactly that case. -/
theorem claim_c10_web :
    (∀ (name : String) (ipv4 ipv6 : Option String) (mods : List JSArg),
      DCL_WEB name ipv4 ipv6 mods =
        DCL_HOST name ipv4 ipv6 mods ++
          (if (jsTruthy ipv4 || jsTruthy ipv6) && name == "@"
           then [Record.CNAME "www" "@" mods] else []))
    ∧ (∀ (name : String) (ipv4 ipv6 : Option String) (mods : List JSArg),
      (DCL_WEB name ipv4 ipv6 mods).filter isWwwCname =
        (if (jsTruthy ipv4 || jsTruthy ipv6) && name == "@"
         then [Record.CNAME "www" "@" mods] else [])) := by
  have hhost : ∀ (name : String) (ipv4 ipv6 : Option String) (mods : List JSArg),
      (DCL_HOST name ipv4 ipv6 mods).filter isWwwCname = [] := by
    intro name ipv4 ipv6 mods
    unfold DCL_HOST
    by_cases h4 : jsTruthy ipv4 <;> by_cases h6 : jsTruthy ipv6 <;>
      simp [h4, h6, isWwwCname]
  constructor
  · intro name ipv4 ipv6 mods
    unfold DCL_WEB
    by_cases h : (jsTruthy ipv4 || jsTruthy ipv6) && name == "@" <;> simp [h]
  · intro name ipv4 ipv6 mods
    unfold DCL_WEB
    by_cases h : (jsTruthy ipv4 || jsTruthy ipv6) && name == "@" <;>
      simp [h, List.filter_append, hhost, isWwwCname]

/-- C1 (corrected): the deferred reverse step of `DCL_HOST_PTR` issues
exactly one `D_EXTEND(REV(alias), PTR(alias, fqdn, ...modifiers))` per
truthy (non-null, non-empty) alias of the list seeded from
`[ipv4, ipv6]` and extended by an array-shaped first trailing argument
(which is removed from the modifier list), with
`fqdn = Normalize(domain, name)`; the two listed examples hold. -/
theorem claim_c1_host_ptr_reverse :
    (∀ (name : String) (ipv4 ipv6 : Option String) (extras : List (Option String))
       (rest : List JSArg) (domain : String),
      (DCL_HOST_PTR name ipv4 ipv6 (JSArg.arr extras :: rest)).reverse domain =
        (([ipv4, ipv6] ++ extras).filter jsTruthy).map (fun a =>
          ⟨a.getD "", Record.PTR (a.getD "") (DCL_UTIL_FQDN domain name) rest⟩))
    ∧ (∀ (name : String) (ipv4 ipv6 : Option String) (domain : String),
      (DCL_HOST_PTR name ipv4 ipv6 []).reverse domain =
        (([ipv4, ipv6]).filter jsTruthy).map (fun a =>
          ⟨a.getD "", Record.PTR (a.getD "") (DCL_UTIL_FQDN domain name) []⟩))
    ∧ (∀ (name : String) (ipv4 ipv6 : Option String) (s : String)
       (rest : List JSArg) (domain : String),
      (DCL_HOST_PTR name ipv4 ipv6 (JSArg.str s :: rest)).reverse domain =
        (([ipv4, ipv6]).filter jsTruthy).map (fun a =>
          ⟨a.getD "", Record.PTR (a.getD "") (DCL_UTIL_FQDN domain name)
            (JSArg.str s :: rest)⟩))
    ∧ ((DCL_HOST_PTR "srv" (some "1.2.3.4") (some "::1") []).reverse "example.com" =
        [⟨"1.2.3.4", Record.PTR "1.2.3.4" (DCL_UTIL_FQDN "example.com" "srv") []⟩,
         ⟨"::1", Record.PTR "::1" (DCL_UTIL_FQDN "example.com" "srv") []⟩])
    ∧ ((DCL_HOST_PTR "host" none none []).reverse "example.com" = []) := by
  exact ⟨fun _ _ _ _ _ _ => rfl, fun _ _ _ _ => rfl, fun _ _ _ _ _ _ => rfl,
    by decide, by decide⟩

/-- C1 counterexample: with the extra reverse-alias list `[""]`, the single
alias is non-null, yet the reverse step issues no extension (JS truthiness
filters the empty string out). -/
theorem claim_c1_cex :
    (DCL_HOST_PTR "srv" none none [JSArg.arr [some ""]]).reverse "example.com" = []
    ∧ (([none, none] ++ [some ""]).filter (fun a : Option String => a.isSome)).length
        = 1 := by decide

/-- C5 (corrected): `DCL_HOST_PTR` emits its forward A/AAAA records without
the trailing modifiers (`DCL_HOST` is invoked with only name and addresses);
the modifiers remaining after removing an array-shaped first trailing
argument are applied to the PTR records only. -/
theorem claim_c5_host_ptr_mods :
    ∀ (name : String) (ipv4 ipv6 : Option String) (mods : List JSArg) (domain : String),
      (DCL_HOST_PTR name ipv4 ipv6 mods).forward = DCL_HOST name ipv4 ipv6 []
      ∧ ((DCL_HOST_PTR name ipv4 ipv6 mods).reverse domain).all
          (fun e => e.ptr ==
            Record.PTR e.rev (DCL_UTIL_FQDN domain name) (splitRevArgs mods).2) = true := by
  intro name ipv4 ipv6 mods domain
  constructor
  · rfl
  · unfold DCL_HOST_PTR
    rw [List.all_eq_true]
    intro x hx
    simp only [List.mem_map] at hx
    obtain ⟨a, _, rfl⟩ := hx
    simp

/-- C5 counterexample: a scalar trailing modifier is not applied to the
forward A record produced by `DCL_HOST_PTR`. -/
theorem claim_c5_cex :
    (DCL_HOST_PTR "www" (some "1.2.3.4") none [JSArg.str "CF_PROXY_ON"]).forward
        = [Record.A "www" "1.2.3.4" []]
    ∧ (DCL_HOST_PTR "www" (some "1.2.3.4") none [JSArg.str "CF_PROXY_ON"]).forward
        ≠ [Record.A "www" "1.2.3.4" [JSArg.str "CF_PROXY_ON"]] := by decide

/-- C9 (confirmed): with a truthy `mail` identifier and a defined-but-empty
`dkim` map, `DCL_MICROSOFT365` takes the dkim-present branch and produces
no `_domainkey` CNAME at all, while still producing the MS verification
TXT, the MX, the SPF TXT and the autodiscover CNAME. -/
theorem claim_c9_m365_empty_dkim (code m : String) (hm : m ≠ "") :
    DCL_MICROSOFT365 code (some ⟨some m, some []⟩) =
      [Record.TXT "@" ("MS=" ++ code),
       Record.MX "@" 0 (m ++ ".mail.protection.outlook.com."),
       Record.TXT "@" "v=spf1 include:spf.protection.outlook.com -all",
       Record.CNAME "autodiscover" "autodiscover.outlook.com." []]
    ∧ (DCL_MICROSOFT365 code (some ⟨some m, some []⟩)).all
        (fun r => !(isDomainkeyCname r)) = true := by
  have hj : jsTruthy (some m) = true := by
    simp [jsTruthy, bne_iff_ne]
    exact hm
  have h1 : DCL_MICROSOFT365 code (some ⟨some m, some []⟩) =
      [Record.TXT "@" ("MS=" ++ code),
       Record.MX "@" 0 (m ++ ".mail.protection.outlook.com."),
       Record.TXT "@" "v=spf1 include:spf.protection.outlook.com -all",
       Record.CNAME "autodiscover" "autodiscover.outlook.com." []] := by
    unfold DCL_MICROSOFT365
    simp [hj]
  refine ⟨h1, ?_⟩
  rw [h1]
  simp only [List.all_cons, List.all_nil, isDomainkeyCname]
  decide

/-- Witness for C9 at a concrete verification code and mail identifier. -/
theorem claim_c9_witness :
    DCL_MICROSOFT365 "abc123" (some ⟨some "contoso-com", some []⟩) =
      [Record.TXT "@" ("MS=" ++ "abc123"),
       Record.MX "@" 0 ("contoso-com" ++ ".mail.protection.outlook.com."),
       Record.TXT "@" "v=spf1 include:spf.protection.outlook.com -all",
       Record.CNAME "autodiscover" "autodiscover.outlook.com." []]
    ∧ (DCL_MICROSOFT365 "abc123" (some ⟨some "contoso-com", some []⟩)).all
        (fun r => !(isDomainkeyCname r)) = true :=
  claim_c9_m365_empty_dkim "abc123" "contoso-com" (by decide)
